import Mathlib

/-!
Verification of the interview Session Run Controller of the
SmartAIInterviewer repository.

The executable session logic present in the repository lives in the
frontend (`InterviewPage`, `StartInterviewForm`, `lib/api.ts`): the
session-run resolver effect, the duration-guard timer effect, the
transcript reconstruction, and the send-message mutation.  The FastAPI
backend endpoints (`/start`, `/messages`, `/end`, interview
create/update validation) are not part of the source tree; where a
claim depends on them they are modelled from the specification and
marked as such in their doc comments.

Timestamps (`created_at`, ISO strings converted with
`new Date(s).getTime()` in the source) are modelled as natural numbers
of milliseconds since the epoch.
-/

namespace SAI

/-- Sentinel candidate-message written by the backend when a run starts
(`"[INTERVIEW_STARTED]"` in the source). -/
def INTERVIEW_STARTED : String := "[INTERVIEW_STARTED]"

/-- Sentinel candidate-message written by the backend when a run ends
(`"[SESSION_ENDED]"` in the source). -/
def SESSION_ENDED : String := "[SESSION_ENDED]"

/-- One persisted conversation turn, the `InterviewSession` record of
`lib/api.ts` (fields `id`, `interview_id`, `ai_message`, `user_message`,
`feedback`, `created_at`, `session_run_id?`). -/
structure InterviewSession where
  id : String
  interview_id : String
  ai_message : String
  user_message : String
  feedback : Option String
  created_at : Nat
  session_run_id : Option String
  deriving Repr, DecidableEq

/-- Message role in the chat view (`"ai" | "user"` in `InterviewPage`). -/
inductive Role where
  | ai
  | user
  deriving Repr, DecidableEq

/-- One visible chat entry, the `Message` interface of `InterviewPage`. -/
structure Message where
  id : String
  role : Role
  content : String
  feedback : Option String
  timestamp : Nat
  deriving Repr, DecidableEq

/-- The AI-side entry a stored turn contributes to the transcript
(`InterviewPage` pushes `{id: session.id, role: "ai", content:
session.ai_message, feedback: session.feedback, timestamp:
session.created_at}`). -/
def aiEntry (s : InterviewSession) : Message :=
  { id := s.id
    role := Role.ai
    content := s.ai_message
    feedback := s.feedback
    timestamp := s.created_at }

/-- The user-side entry a stored turn contributes to the transcript
(`InterviewPage` pushes `{id: session.id + "-user", role: "user",
content: session.user_message, timestamp: session.created_at}`). -/
def userEntry (s : InterviewSession) : Message :=
  { id := s.id ++ "-user"
    role := Role.user
    content := s.user_message
    feedback := none
    timestamp := s.created_at }

/-- The entries one stored turn contributes to the visible transcript:
the `sessions.forEach` body of `InterviewPage` (current variant,
part_006 lines 197-227).  A turn whose `user_message` is the
run-started sentinel contributes only its AI message; every other turn
contributes its user message first, then its AI message. -/
def sessionMessages (s : InterviewSession) : List Message :=
  if s.user_message = INTERVIEW_STARTED then
    [aiEntry s]
  else
    [userEntry s, aiEntry s]

/-- `isOpeningQuestionInSessions` of `InterviewPage`: whether the
opening question already appears in the fetched sessions as the
run-started turn's AI message. -/
def isOpeningQuestionInSessions (openingQuestion : String)
    (sessions : List InterviewSession) : Bool :=
  sessions.any fun s =>
    s.user_message = INTERVIEW_STARTED && s.ai_message = openingQuestion

/-- Transcript reconstruction of `InterviewPage` (current variant):
optionally prepend the freshly returned opening question when no
sessions are loaded yet, then convert each stored turn with
`sessionMessages`.  `now` stands for `new Date().toISOString()` at
render time. -/
def messagesOf (openingQuestion : Option String)
    (sessions : List InterviewSession) (now : Nat) : List Message :=
  let opening : List Message :=
    match openingQuestion with
    | some q =>
        if sessions.length = 0 && !isOpeningQuestionInSessions q sessions then
          [{ id := "opening", role := Role.ai, content := q,
             feedback := none, timestamp := now }]
        else []
    | none => []
  opening ++ sessions.flatMap sessionMessages

/-- What the mount effect of `InterviewPage` (part_006 lines 93-112)
decides to do after the latest-session query settles. -/
inductive ResolveAction where
  | startNew
  | resume (sessionRunId : String)
  | noAction
  deriving Repr, DecidableEq

/-- The mount effect of `InterviewPage` (current variant): start a new
run when there is no history or the latest turn carries the run-ended
sentinel (guarded by `!started && !isPending`); resume when the latest
turn carries a session-run id; otherwise do nothing. -/
def resolveOnMount (latestSession : Option InterviewSession)
    (started isPending : Bool) : ResolveAction :=
  match latestSession with
  | some latest =>
      if latest.user_message = SESSION_ENDED then
        if !started && !isPending then ResolveAction.startNew
        else ResolveAction.noAction
      else
        match latest.session_run_id with
        | some rid => ResolveAction.resume rid
        | none => ResolveAction.noAction
  | none =>
      if !started && !isPending then ResolveAction.startNew
      else ResolveAction.noAction

/-- Start-time selection of the timer effect of `InterviewPage`
(part_006 lines 144-153): the `created_at` of the first fetched turn
whose `user_message` is the run-started sentinel; otherwise `Date.now()`
or, when an elapsed count already exists, `now - elapsedTime * 1000`. -/
def startTimeOf (sessions : List InterviewSession)
    (elapsedTime now : Nat) : Nat :=
  match sessions.find? (fun s => s.user_message = INTERVIEW_STARTED) with
  | some s => s.created_at
  | none => if elapsedTime > 0 then now - elapsedTime * 1000 else now

/-- `secondsElapsed` of the timer effect: `Math.floor((now - startTime)
/ 1000)`. -/
def secondsElapsed (now startTime : Nat) : Nat :=
  (now - startTime) / 1000

/-- The auto-end condition of the timer effect (part_006 line 162):
`secondsElapsed >= durationMinutes * 60` triggers `handleEndCall()`. -/
def autoEndFires (now startTime durationMinutes : Nat) : Bool :=
  decide (durationMinutes * 60 ≤ secondsElapsed now startTime)

/-- Modelled from the spec: the FastAPI backend's Turn Store is not in
the source tree (only its frontend callers are).  Per section 4.1 it is
an append-only ledger of turns in strict append order, with a
monotonically increasing order key; `counter` supplies fresh
identifiers. -/
structure Store where
  turns : List InterviewSession
  counter : Nat
  deriving Repr, DecidableEq

/-- `listByRun` of the Turn Store: all turns of one run, oldest first
(the backend filters `GET /sessions?session_run_id=...` this way). -/
def listByRun (st : Store) (rid : String) : List InterviewSession :=
  st.turns.filter fun t => t.session_run_id = some rid

/-- `latestForInterview` of the Turn Store: the most recently appended
turn for the interview, across runs (`GET /latest-session`). -/
def latestForInterview (st : Store) (iid : String) : Option InterviewSession :=
  (st.turns.filter fun t => t.interview_id = iid).getLast?

/-- Whether a run already holds a terminal turn. -/
def runEnded (st : Store) (rid : String) : Bool :=
  (listByRun st rid).any fun t => t.user_message = SESSION_ENDED

/-- The opening question a resumed run replays: the AI message of the
run's run-started turn, as `listByRun` returns it. -/
def openingQuestionOf (st : Store) (rid : String) : Option String :=
  ((listByRun st rid).find? fun t => t.user_message = INTERVIEW_STARTED).map
    fun t => t.ai_message

/-- The fresh run identifier the next new run receives. -/
def freshRunId (st : Store) : String :=
  "run-" ++ toString st.counter

/-- Modelled from the spec: step 4 of the Session Run Resolver
(section 4.2) — the backend `/start` endpoint is not in the source
tree.  Create a new session run, obtain the opening question `q` from
the external question-generation collaborator, and append a turn
pairing it with the run-started sentinel. -/
def newRun (st : Store) (iid q : String) (now : Nat) :
    Store × String × Option String :=
  let rid := freshRunId st
  let turn : InterviewSession :=
    { id := "turn-" ++ toString st.counter
      interview_id := iid
      ai_message := q
      user_message := INTERVIEW_STARTED
      feedback := none
      created_at := now
      session_run_id := some rid }
  ({ turns := st.turns ++ [turn], counter := st.counter + 1 }, rid, some q)

/-- The `start` operation: the resolver decision is the mount effect of
`InterviewPage` (start new when no history or the latest turn is the
run-ended sentinel; resume when the latest turn carries a run id;
otherwise nothing happens — modelled as `none`).  New-run creation is
`newRun`, modelled from the spec; a resumed run returns its stored
opening question unchanged. -/
def start (st : Store) (iid q : String) (now : Nat) :
    Option (Store × String × Option String) :=
  match latestForInterview st iid with
  | none => some (newRun st iid q now)
  | some latest =>
      if latest.user_message = SESSION_ENDED then
        some (newRun st iid q now)
      else
        match latest.session_run_id with
        | some rid => some (st, rid, openingQuestionOf st rid)
        | none => none

/-- Modelled from the spec: the backend `/end` endpoint is not in the
source tree.  Per section 4.3, `endRun` on an already-ended run is a
no-op returning the existing summary (the terminal turn's feedback);
otherwise it appends a terminal turn carrying the run-ended sentinel
and the summary in the feedback field. -/
def endRun (st : Store) (iid rid summary : String) (now : Nat) :
    Store × Option String :=
  match (listByRun st rid).find? (fun t => t.user_message = SESSION_ENDED) with
  | some t => (st, t.feedback)
  | none =>
      let turn : InterviewSession :=
        { id := "turn-" ++ toString st.counter
          interview_id := iid
          ai_message := ""
          user_message := SESSION_ENDED
          feedback := some summary
          created_at := now
          session_run_id := some rid }
      ({ turns := st.turns ++ [turn], counter := st.counter + 1 }, some summary)

/-- Modelled from the spec: the backend `/messages` endpoint is not in
the source tree.  Per sections 4.3 and 7, `submitAnswer` fails with
`RunTerminatedError` on an ended run; a generation failure (`gen =
none`) surfaces `GenerationFailedError` with no partial state
persisted; on success it appends one turn pairing the candidate's text
with the generated system message and optional feedback. -/
def submitAnswer (st : Store) (iid rid text : String)
    (gen : Option (String × Option String)) (now : Nat) :
    Except String (Store × String × Option String) :=
  if runEnded st rid then
    Except.error "RunTerminatedError"
  else
    match gen with
    | none => Except.error "GenerationFailedError"
    | some (q, fb) =>
        let turn : InterviewSession :=
          { id := "turn-" ++ toString st.counter
            interview_id := iid
            ai_message := q
            user_message := text
            feedback := fb
            created_at := now
            session_run_id := some rid }
        Except.ok
          ({ turns := st.turns ++ [turn], counter := st.counter + 1 }, q, fb)

/-- The client-side state the send-message mutation touches: the draft
text in the input box (`userMessage` in `InterviewPage`). -/
structure ClientState where
  userMessage : String
  deriving Repr, DecidableEq

/-- One settled round of the send-message mutation of `InterviewPage`
(part_006 lines 235-255): on success `setUserMessage("")` clears the
draft and the sessions query is refetched against the new store; on
error only a toast is shown — the draft and the store are untouched. -/
def clientSubmitStep (st : Store) (cs : ClientState) (iid rid : String)
    (gen : Option (String × Option String)) (now : Nat) :
    Store × ClientState :=
  match submitAnswer st iid rid cs.userMessage gen now with
  | Except.ok (st2, _, _) => (st2, { userMessage := "" })
  | Except.error _ => (st, cs)

/-- States of the Turn-Taking State Machine (section 4.3). -/
inductive RunState where
  | awaitingCandidate
  | awaitingSystem
  | ended
  deriving Repr, DecidableEq

/-- Modelled from the spec: a run together with its in-flight flag —
`pending` is true while a `submitAnswer` has been accepted but has not
yet produced a system turn (section 4.3: at most one in-flight answer
per run). -/
structure RunMachine where
  store : Store
  pending : Bool
  deriving Repr, DecidableEq

/-- The state the Turn-Taking State Machine is in for run `rid`. -/
def runStateOf (rm : RunMachine) (rid : String) : RunState :=
  if runEnded rm.store rid then RunState.ended
  else if rm.pending then RunState.awaitingSystem
  else RunState.awaitingCandidate

/-- Modelled from the spec: acceptance of a `submitAnswer` call
(section 4.3) — valid only in `AWAITING_CANDIDATE`, rejected with
`OutOfTurnError` otherwise, so a second call that begins while the
first is still in flight is rejected. -/
def beginSubmit (rm : RunMachine) (rid : String) :
    Except String RunMachine :=
  if runStateOf rm rid = RunState.awaitingCandidate then
    Except.ok { rm with pending := true }
  else
    Except.error "OutOfTurnError"

/-- Modelled from the spec: completion of an accepted `submitAnswer`
(section 4.3) — the paired turn is appended and the machine returns to
`AWAITING_CANDIDATE`. -/
def commitSubmit (rm : RunMachine) (iid rid text q : String)
    (fb : Option String) (now : Nat) : RunMachine :=
  let turn : InterviewSession :=
    { id := "turn-" ++ toString rm.store.counter
      interview_id := iid
      ai_message := q
      user_message := text
      feedback := fb
      created_at := now
      session_run_id := some rid }
  { store := { turns := rm.store.turns ++ [turn],
               counter := rm.store.counter + 1 }
    pending := false }

/-- An interview record (`Interview` of `lib/api.ts`), with the
configured duration in minutes. -/
structure Interview where
  id : String
  user_id : String
  title : String
  duration_minutes : Int
  deriving Repr, DecidableEq

/-- Operations that produce interview records: create and update
(`api.createInterview` / `api.updateInterview`). -/
inductive InterviewOp where
  | create (id user_id title : String) (duration_minutes : Int)
  | update (id : String) (title : Option String)
      (duration_minutes : Option Int)
  deriving Repr, DecidableEq

/-- The 15-60 minute bound the duration input of `StartInterviewForm`
declares (`min="15" max="60"`). -/
def durationInRange (d : Int) : Bool :=
  decide (15 ≤ d ∧ d ≤ 60)

/-- Modelled from the spec: the backend interview create/update
endpoints are not in the source tree.  Per section 3 the configured
duration is bounded 15-60; an operation carrying an out-of-range
duration is rejected and leaves the records unchanged. -/
def applyInterviewOp (ivs : List Interview) (op : InterviewOp) :
    List Interview :=
  match op with
  | InterviewOp.create i u t d =>
      if durationInRange d then
        ivs ++ [{ id := i, user_id := u, title := t, duration_minutes := d }]
      else ivs
  | InterviewOp.update i t d =>
      match d with
      | some dv =>
          if durationInRange dv then
            ivs.map fun iv =>
              if iv.id = i then
                { iv with title := t.getD iv.title, duration_minutes := dv }
              else iv
          else ivs
      | none =>
          ivs.map fun iv =>
            if iv.id = i then { iv with title := t.getD iv.title } else iv

/-- The interview records reachable from an empty table by a sequence
of create/update operations. -/
def runInterviewOps (ops : List InterviewOp) : List Interview :=
  ops.foldl applyInterviewOp []

/-! Concrete turns used to evaluate the definitions. -/

/-- A run-started turn, as the backend persists it on `/start`. -/
def sampleStart : InterviewSession :=
  { id := "s0", interview_id := "i1", ai_message := "Q0"
    user_message := INTERVIEW_STARTED, feedback := none
    created_at := 1000, session_run_id := some "r1" }

/-- An ordinary answer/question turn. -/
def sampleTurn : InterviewSession :=
  { id := "s1", interview_id := "i1", ai_message := "Q1"
    user_message := "A1", feedback := some "good"
    created_at := 2000, session_run_id := some "r1" }

/-- A terminal turn carrying the run-ended sentinel. -/
def sampleEnd : InterviewSession :=
  { id := "s2", interview_id := "i1", ai_message := ""
    user_message := SESSION_ENDED, feedback := some "summary"
    created_at := 3000, session_run_id := some "r1" }

/-- A legacy turn that carries no session-run identifier. -/
def sampleLegacy : InterviewSession :=
  { id := "s3", interview_id := "i1", ai_message := "Qz"
    user_message := "Az", feedback := none
    created_at := 500, session_run_id := none }

/-! Helper lemmas. -/

/-- A turn that does not carry the run-started sentinel contributes its
user entry first, then its AI entry. -/
theorem sessionMessages_of_regular (s : InterviewSession)
    (h : s.user_message ≠ INTERVIEW_STARTED) :
    sessionMessages s = [userEntry s, aiEntry s] := by
  simp [sessionMessages, h]

/-- A run-started turn contributes only its AI entry. -/
theorem sessionMessages_of_started (s : InterviewSession)
    (h : s.user_message = INTERVIEW_STARTED) :
    sessionMessages s = [aiEntry s] := by
  simp [sessionMessages, h]

/-- Flattening a list of regular turns yields user-then-AI pairs. -/
theorem flatMap_sessionMessages_regular (l : List InterviewSession)
    (h : ∀ t ∈ l, t.user_message ≠ INTERVIEW_STARTED) :
    l.flatMap sessionMessages
      = l.flatMap fun t => [userEntry t, aiEntry t] := by
  induction l with
  | nil => rfl
  | cons a l ih =>
      simp only [List.flatMap_cons]
      rw [sessionMessages_of_regular a (h a (List.mem_cons_self a l)),
        ih fun t ht => h t (List.mem_cons_of_mem a ht)]

/-- C1. The transcript of a run whose first fetched turn is the
run-started sentinel and whose remaining turns are ordinary non-terminal
turns is the opening question's AI entry followed, for each subsequent
turn, by its candidate entry and then its AI entry — the candidate's
answer is never preceded by the system message of its own turn. -/
theorem C1_transcript_candidate_before_system (oq : Option String)
    (now : Nat) (t0 : InterviewSession) (rest : List InterviewSession)
    (h0 : t0.user_message = INTERVIEW_STARTED)
    (hrest : ∀ t ∈ rest, t.user_message ≠ INTERVIEW_STARTED ∧
      t.user_message ≠ SESSION_ENDED) :
    messagesOf oq (t0 :: rest) now
      = aiEntry t0 :: rest.flatMap fun t => [userEntry t, aiEntry t] := by
  have hlen : (t0 :: rest).length = 0 ↔ False := by simp
  simp only [messagesOf]
  have hopen :
      (match oq with
        | some q =>
            if (t0 :: rest).length = 0 &&
                !isOpeningQuestionInSessions q (t0 :: rest) then
              [{ id := "opening", role := Role.ai, content := q,
                 feedback := none, timestamp := now }]
            else ([] : List Message)
        | none => ([] : List Message)) = [] := by
    cases oq with
    | none => rfl
    | some q => simp
  rw [hopen]
  simp only [List.nil_append, List.flatMap_cons,
    sessionMessages_of_started t0 h0,
    flatMap_sessionMessages_regular rest fun t ht => (hrest t ht).1]
  rfl

/-- Witness for C1 at a concrete two-turn run. -/
theorem C1_witness :
    messagesOf (some "Q0") [sampleStart, sampleTurn] 5
      = [aiEntry sampleStart, userEntry sampleTurn, aiEntry sampleTurn] :=
  C1_transcript_candidate_before_system (some "Q0") 5 sampleStart
    [sampleTurn] (by decide) (by decide)

/-- C4 (amended wording kept as claimed, with its own parenthetical
qualification): the mount effect starts a new run exactly when there is
no latest turn or the latest turn carries the run-ended sentinel, and
whenever the latest turn is non-terminal and carries a session-run
identifier it resumes that run. -/
theorem C4_resolver_decision (latest : Option InterviewSession) :
    (resolveOnMount latest false false = ResolveAction.startNew ↔
      (latest = none ∨
        ∃ l, latest = some l ∧ l.user_message = SESSION_ENDED)) ∧
    (∀ l rid, latest = some l → l.user_message ≠ SESSION_ENDED →
      l.session_run_id = some rid →
      resolveOnMount latest false false = ResolveAction.resume rid) := by
  constructor
  · cases latest with
    | none => simp [resolveOnMount]
    | some l =>
        simp only [resolveOnMount]
        by_cases h : l.user_message = SESSION_ENDED
        · simp [h]
        · cases hr : l.session_run_id with
          | none => simp [h, hr]
          | some rid => simp [h, hr]
  · intro l rid hl hne hrid
    subst hl
    simp [resolveOnMount, hne, hrid]

/-- Witness for C4: a non-terminal latest turn with a run id resumes. -/
theorem C4_witness :
    resolveOnMount (some sampleTurn) false false
      = ResolveAction.resume "r1" :=
  (C4_resolver_decision (some sampleTurn)).2 sampleTurn "r1" rfl
    (by decide) rfl

/-- C10. A latest turn that is non-terminal but carries no session-run
identifier makes the mount effect do nothing: no start request is
issued and no run is resumed. -/
theorem C10_no_run_id_no_action (l : InterviewSession)
    (h1 : l.user_message ≠ SESSION_ENDED)
    (h2 : l.session_run_id = none) :
    resolveOnMount (some l) false false = ResolveAction.noAction := by
  simp [resolveOnMount, h1, h2]

/-- Witness for C10 at a concrete legacy turn. -/
theorem C10_witness :
    resolveOnMount (some sampleLegacy) false false
      = ResolveAction.noAction :=
  C10_no_run_id_no_action sampleLegacy (by decide) rfl

/-- Counterexample to C5: the transcript reconstructed from a run that
ends with a terminal turn contains the terminal turn's candidate entry
(and its AI entry follows it) — the reconstruction only special-cases
the run-started sentinel, not the run-ended one. -/
theorem C5_counterexample :
    userEntry sampleEnd ∈ messagesOf none [sampleStart, sampleEnd] 0 ∧
    aiEntry sampleEnd ∈ messagesOf none [sampleStart, sampleEnd] 0 := by
  constructor <;> decide

/-- C5 amended: a terminal turn at the end of the stored sequence
contributes two transcript entries — its candidate-message entry then
its system-message entry — exactly like any other non-opening turn. -/
theorem C5_amended_terminal_contributes (oq : Option String)
    (ts : List InterviewSession) (tEnd : InterviewSession) (now : Nat)
    (hEnd : tEnd.user_message = SESSION_ENDED) :
    messagesOf oq (ts ++ [tEnd]) now
      = ts.flatMap sessionMessages ++ [userEntry tEnd, aiEntry tEnd] := by
  have hne : tEnd.user_message ≠ INTERVIEW_STARTED := by
    rw [hEnd]; decide
  have hopen :
      (match oq with
        | some q =>
            if (ts ++ [tEnd]).length = 0 &&
                !isOpeningQuestionInSessions q (ts ++ [tEnd]) then
              [{ id := "opening", role := Role.ai, content := q,
                 feedback := none, timestamp := now }]
            else ([] : List Message)
        | none => ([] : List Message)) = [] := by
    cases oq with
    | none => rfl
    | some q => simp
  simp only [messagesOf, hopen, List.nil_append, List.flatMap_append,
    List.flatMap_cons, List.flatMap_nil,
    sessionMessages_of_regular tEnd hne, List.append_nil]

/-- Witness for C5's amended statement at a concrete ended run. -/
theorem C5_amended_witness :
    messagesOf none [sampleStart, sampleEnd] 0
      = [sampleStart].flatMap sessionMessages
          ++ [userEntry sampleEnd, aiEntry sampleEnd] :=
  C5_amended_terminal_contributes none [sampleStart] sampleEnd 0 rfl

/-- C2. When the fetched sessions contain a run-started turn `s` (found
first by the timer effect), the guard's start time is exactly that
turn's timestamp — the session-run record's creation time is never
consulted — and the auto-end condition holds at a tick at time `now`
precisely when `now` is at or after the turn's timestamp plus the
configured duration: the guard never ends the run before `T + D`
minutes and ends it at any tick at or after that instant. -/
theorem C2_duration_guard (sessions : List InterviewSession)
    (s : InterviewSession) (e now D : Nat) (hD : 0 < D)
    (hfind : sessions.find?
      (fun x => x.user_message = INTERVIEW_STARTED) = some s) :
    startTimeOf sessions e now = s.created_at ∧
    (autoEndFires now (startTimeOf sessions e now) D = true ↔
      s.created_at + D * 60 * 1000 ≤ now) := by
  have hst : startTimeOf sessions e now = s.created_at := by
    simp [startTimeOf, hfind]
  refine ⟨hst, ?_⟩
  rw [hst]
  simp only [autoEndFires, secondsElapsed, decide_eq_true_eq]
  omega

/-- Witness for C2: duration 15 minutes, run started at 1000 ms, tick
at 1000 + 15·60·1000 ms fires. -/
theorem C2_witness :
    startTimeOf [sampleStart, sampleTurn] 0 901000 = 1000 ∧
    autoEndFires 901000 (startTimeOf [sampleStart, sampleTurn] 0 901000)
      15 = true :=
  have h := C2_duration_guard [sampleStart, sampleTurn] sampleStart 0
    901000 15 (by decide) (by decide)
  ⟨h.1, h.2.mpr (by decide)⟩

/-- C6. Ending a run twice returns the same summary both times and the
second call appends no turn: the store after the second `endRun` is the
store after the first, whatever summary the generator would produce the
second time. -/
theorem C6_end_idempotent (st : Store) (iid rid summary summary2 : String)
    (now now2 : Nat) :
    endRun (endRun st iid rid summary now).1 iid rid summary2 now2
      = endRun st iid rid summary now := by
  cases hfind : (listByRun st rid).find?
      (fun t => t.user_message = SESSION_ENDED) with
  | some t =>
      simp [endRun, hfind]
  | none =>
      have hnone : ∀ x ∈ listByRun st rid,
          ¬(x.user_message = SESSION_ENDED) := by
        intro x hx
        have := List.find?_eq_none.mp hfind x hx
        simpa using this
      simp only [endRun, hfind]
      have hlist : listByRun
          { turns := st.turns ++
              [{ id := "turn-" ++ toString st.counter, interview_id := iid,
                 ai_message := "", user_message := SESSION_ENDED,
                 feedback := some summary, created_at := now,
                 session_run_id := some rid }],
            counter := st.counter + 1 } rid
          = listByRun st rid ++
              [{ id := "turn-" ++ toString st.counter, interview_id := iid,
                 ai_message := "", user_message := SESSION_ENDED,
                 feedback := some summary, created_at := now,
                 session_run_id := some rid }] := by
        simp [listByRun, List.filter_append]
      have hfind2 : (listByRun
          { turns := st.turns ++
              [{ id := "turn-" ++ toString st.counter, interview_id := iid,
                 ai_message := "", user_message := SESSION_ENDED,
                 feedback := some summary, created_at := now,
                 session_run_id := some rid }],
            counter := st.counter + 1 } rid).find?
          (fun t => t.user_message = SESSION_ENDED)
          = some { id := "turn-" ++ toString st.counter, interview_id := iid,
                   ai_message := "", user_message := SESSION_ENDED,
                   feedback := some summary, created_at := now,
                   session_run_id := some rid } := by
        rw [hlist]
        rw [List.find?_append]
        have h1 : (listByRun st rid).find?
            (fun t => t.user_message = SESSION_ENDED) = none := hfind
        rw [h1]
        simp
      simp [endRun, hfind2]

/-- After `newRun` creates a fresh run, a further `start` resumes that
run and returns the stored opening question, mutating nothing. -/
theorem start_after_newRun (st : Store) (iid q q2 : String)
    (now now2 : Nat)
    (hfresh : ∀ t ∈ st.turns, t.session_run_id ≠ some (freshRunId st)) :
    start (newRun st iid q now).1 iid q2 now2
      = some ((newRun st iid q now).1, freshRunId st, some q) := by
  have hfilter : st.turns.filter
      (fun t => t.session_run_id = some (freshRunId st)) = [] := by
    apply List.filter_eq_nil_iff.mpr
    intro a ha
    simpa using hfresh a ha
  simp only [newRun]
  have hlatest : latestForInterview
      { turns := st.turns ++
          [{ id := "turn-" ++ toString st.counter, interview_id := iid,
             ai_message := q, user_message := INTERVIEW_STARTED,
             feedback := none, created_at := now,
             session_run_id := some (freshRunId st) }],
        counter := st.counter + 1 } iid
      = some { id := "turn-" ++ toString st.counter, interview_id := iid,
               ai_message := q, user_message := INTERVIEW_STARTED,
               feedback := none, created_at := now,
               session_run_id := some (freshRunId st) } := by
    simp [latestForInterview, List.filter_append, List.getLast?_concat]
  have hopening : openingQuestionOf
      { turns := st.turns ++
          [{ id := "turn-" ++ toString st.counter, interview_id := iid,
             ai_message := q, user_message := INTERVIEW_STARTED,
             feedback := none, created_at := now,
             session_run_id := some (freshRunId st) }],
        counter := st.counter + 1 } (freshRunId st) = some q := by
    simp [openingQuestionOf, listByRun, List.filter_append, hfilter,
      INTERVIEW_STARTED]
  simp only [start, hlatest]
  rw [if_neg (by simp [INTERVIEW_STARTED, SESSION_ENDED])]
  simp [hopening]

/-- C3. Two `start` calls in a row on the same interview, with no
answer submitted and no end between them, return the same session-run
identifier and the same opening question, and the second call leaves
the store unchanged — a run whose only turn is the run-started sentinel
is resumed, not replaced.  `hfresh` states that the resolver's fresh
run identifier is not already taken in the store. -/
theorem C3_start_idempotent (st st1 : Store) (iid q q2 : String)
    (now now2 : Nat) (rid : String) (oq : Option String)
    (hfresh : ∀ t ∈ st.turns, t.session_run_id ≠ some (freshRunId st))
    (h : start st iid q now = some (st1, rid, oq)) :
    start st1 iid q2 now2 = some (st1, rid, oq) := by
  cases hlatest : latestForInterview st iid with
  | none =>
      have hnew : some (newRun st iid q now) = some (st1, rid, oq) := by
        rw [← h]; simp [start, hlatest]
      have hst1 : newRun st iid q now = (st1, rid, oq) :=
        Option.some.inj hnew
      have h1 : (newRun st iid q now).1 = st1 := by rw [hst1]
      have h2 : (newRun st iid q now).2.1 = rid := by rw [hst1]
      have h3 : (newRun st iid q now).2.2 = oq := by rw [hst1]
      have hrid : freshRunId st = rid := h2
      have hq : (some q : Option String) = oq := h3
      rw [← h1, ← hrid, ← hq]
      exact start_after_newRun st iid q q2 now now2 hfresh
  | some latest =>
      by_cases hended : latest.user_message = SESSION_ENDED
      · have hnew : some (newRun st iid q now) = some (st1, rid, oq) := by
          rw [← h]; simp [start, hlatest, hended]
        have hst1 : newRun st iid q now = (st1, rid, oq) :=
          Option.some.inj hnew
        have h1 : (newRun st iid q now).1 = st1 := by rw [hst1]
        have h2 : (newRun st iid q now).2.1 = rid := by rw [hst1]
        have h3 : (newRun st iid q now).2.2 = oq := by rw [hst1]
        have hrid : freshRunId st = rid := h2
        have hq : (some q : Option String) = oq := h3
        rw [← h1, ← hrid, ← hq]
        exact start_after_newRun st iid q q2 now now2 hfresh
      · cases hrid : latest.session_run_id with
        | none =>
            exfalso
            simp [start, hlatest, hended, hrid] at h
        | some rid0 =>
            have hres : (some (st, rid0, openingQuestionOf st rid0) :
                Option (Store × String × Option String))
                = some (st1, rid, oq) := by
              rw [← h]; simp [start, hlatest, hended, hrid]
            have heq : (st, rid0, openingQuestionOf st rid0)
                = (st1, rid, oq) := Option.some.inj hres
            have hst : st = st1 := congrArg Prod.fst heq
            have hr : rid0 = rid := congrArg (fun p => p.2.1) heq
            have ho : openingQuestionOf st rid0 = oq :=
              congrArg (fun p => p.2.2) heq
            rw [← hst]
            simp only [start, hlatest, hended, if_neg hended, hrid]
            rw [← hr, ho]
            simp

/-- The store after a first `start` on an empty store: one run-started
turn belonging to run `run-0`. -/
def sampleRunStore : Store :=
  { turns := [{ id := "turn-0", interview_id := "i1", ai_message := "Q0",
                user_message := INTERVIEW_STARTED, feedback := none,
                created_at := 1000, session_run_id := some "run-0" }],
    counter := 1 }

/-- Witness for C3: starting on an empty store, then starting again,
returns the same run identifier and opening question. -/
theorem C3_witness :
    start sampleRunStore "i1" "Q9" 2000
      = some (sampleRunStore, "run-0", some "Q0") :=
  C3_start_idempotent { turns := [], counter := 0 } sampleRunStore
    "i1" "Q0" "Q9" 1000 2000 "run-0" (some "Q0")
    (fun t ht => by simp at ht) (by decide)

/-- C7. On an active run, a failed `submitAnswer` (the generation
collaborator produced nothing) leaves everything as it was: the store
is unchanged — no turn is appended — the candidate's draft text is
preserved, and the run is still in `AWAITING_CANDIDATE`; whereas a
successful `submitAnswer` clears the draft and appends exactly one
turn. -/
theorem C7_failed_submit_preserves (st : Store) (cs : ClientState)
    (iid rid : String) (now : Nat)
    (hactive : runEnded st rid = false) :
    clientSubmitStep st cs iid rid none now = (st, cs) ∧
    runStateOf
        { store := (clientSubmitStep st cs iid rid none now).1,
          pending := false } rid = RunState.awaitingCandidate ∧
    (∀ q fb,
      (clientSubmitStep st cs iid rid (some (q, fb)) now).2.userMessage
          = "" ∧
      (clientSubmitStep st cs iid rid (some (q, fb)) now).1.turns.length
          = st.turns.length + 1) := by
  have hfail : clientSubmitStep st cs iid rid none now = (st, cs) := by
    simp [clientSubmitStep, submitAnswer, hactive]
  refine ⟨hfail, ?_, ?_⟩
  · rw [hfail]
    simp [runStateOf, hactive]
  · intro q fb
    simp [clientSubmitStep, submitAnswer, hactive]

/-- Witness for C7 on a one-turn active run with a non-empty draft. -/
theorem C7_witness :
    clientSubmitStep sampleRunStore { userMessage := "my answer" }
        "i1" "run-0" none 5000
      = (sampleRunStore, { userMessage := "my answer" }) ∧
    (clientSubmitStep sampleRunStore { userMessage := "my answer" }
        "i1" "run-0" (some ("Q1", none)) 5000).1.turns.length
      = sampleRunStore.turns.length + 1 :=
  have h := C7_failed_submit_preserves sampleRunStore
    { userMessage := "my answer" } "i1" "run-0" 5000 (by decide)
  ⟨h.1, (h.2.2 "Q1" none).2⟩

/-- C8. From `AWAITING_CANDIDATE`, of two overlapping `submitAnswer`
calls the first is accepted and the second — beginning while the first
has not yet produced a system turn — is rejected with `OutOfTurnError`;
completing the accepted call appends exactly one turn. -/
theorem C8_mutual_exclusion (rm : RunMachine)
    (iid rid text q : String) (fb : Option String) (now : Nat)
    (h : runStateOf rm rid = RunState.awaitingCandidate) :
    beginSubmit rm rid = Except.ok { rm with pending := true } ∧
    beginSubmit { rm with pending := true } rid
      = Except.error "OutOfTurnError" ∧
    (commitSubmit { rm with pending := true } iid rid text q fb
        now).store.turns.length = rm.store.turns.length + 1 ∧
    (commitSubmit { rm with pending := true } iid rid text q fb
        now).pending = false := by
  have hended : runEnded rm.store rid = false := by
    by_contra hc
    simp only [runStateOf, Bool.not_eq_false] at hc
    rw [runStateOf, if_pos hc] at h
    exact RunState.noConfusion h
  refine ⟨?_, ?_, ?_, rfl⟩
  · simp [beginSubmit, h]
  · have h2 : runStateOf { rm with pending := true } rid
        = RunState.awaitingSystem := by
      simp [runStateOf, hended]
    simp [beginSubmit, h2]
  · simp [commitSubmit]

/-- Witness for C8 at a concrete idle run. -/
theorem C8_witness :
    beginSubmit { store := sampleRunStore, pending := false } "run-0"
      = Except.ok { store := sampleRunStore, pending := true } ∧
    beginSubmit { store := sampleRunStore, pending := true } "run-0"
      = Except.error "OutOfTurnError" :=
  have h := C8_mutual_exclusion
    { store := sampleRunStore, pending := false }
    "i1" "run-0" "a1" "Q1" none 5000 (by decide)
  ⟨h.1, h.2.1⟩

/-- Every record `applyInterviewOp` leaves behind has its duration in
the 15-60 range, provided all records before the operation did. -/
theorem applyInterviewOp_preserves (ivs : List Interview)
    (op : InterviewOp)
    (h : ∀ iv ∈ ivs, durationInRange iv.duration_minutes = true) :
    ∀ iv ∈ applyInterviewOp ivs op,
      durationInRange iv.duration_minutes = true := by
  intro iv hiv
  cases op with
  | create i u t d =>
      simp only [applyInterviewOp] at hiv
      by_cases hd : durationInRange d = true
      · rw [if_pos hd] at hiv
        rcases List.mem_append.mp hiv with hin | hin
        · exact h iv hin
        · simp only [List.mem_singleton] at hin
          subst hin
          exact hd
      · rw [if_neg hd] at hiv
        exact h iv hiv
  | update i t d =>
      cases d with
      | some dv =>
          simp only [applyInterviewOp] at hiv
          by_cases hd : durationInRange dv = true
          · rw [if_pos hd] at hiv
            rcases List.mem_map.mp hiv with ⟨iv0, hin0, heq⟩
            by_cases hid : iv0.id = i
            · rw [if_pos hid] at heq
              rw [← heq]
              exact hd
            · rw [if_neg hid] at heq
              rw [← heq]
              exact h iv0 hin0
          · rw [if_neg hd] at hiv
            exact h iv hiv
      | none =>
          simp only [applyInterviewOp] at hiv
          rcases List.mem_map.mp hiv with ⟨iv0, hin0, heq⟩
          by_cases hid : iv0.id = i
          · rw [if_pos hid] at heq
            rw [← heq]
            exact h iv0 hin0
          · rw [if_neg hid] at heq
            rw [← heq]
            exact h iv0 hin0

/-- Folding operations over a table preserves the duration bound. -/
theorem foldl_interviewOps_preserves (ops : List InterviewOp) :
    ∀ ivs, (∀ iv ∈ ivs, durationInRange iv.duration_minutes = true) →
      ∀ iv ∈ ops.foldl applyInterviewOp ivs,
        durationInRange iv.duration_minutes = true := by
  induction ops with
  | nil => intro ivs h iv hiv; exact h iv hiv
  | cons op ops ih =>
      intro ivs h iv hiv
      exact ih (applyInterviewOp ivs op)
        (applyInterviewOp_preserves ivs op h) iv hiv

/-- C9. Every interview record produced by any sequence of create and
update operations has a configured duration between 15 and 60 minutes
inclusive. -/
theorem C9_duration_bounded (ops : List InterviewOp) (iv : Interview)
    (h : iv ∈ runInterviewOps ops) :
    15 ≤ iv.duration_minutes ∧ iv.duration_minutes ≤ 60 := by
  have hr := foldl_interviewOps_preserves ops []
    (fun iv0 hiv0 => absurd hiv0 (List.not_mem_nil iv0)) iv h
  simpa [durationInRange] using hr

/-- Witness for C9: a created-then-updated interview stays in range. -/
theorem C9_witness :
    15 ≤ ({ id := "i1", user_id := "u", title := "t2",
            duration_minutes := 45 } : Interview).duration_minutes ∧
    ({ id := "i1", user_id := "u", title := "t2",
       duration_minutes := 45 } : Interview).duration_minutes ≤ 60 :=
  C9_duration_bounded
    [InterviewOp.create "i1" "u" "t1" 30,
     InterviewOp.update "i1" (some "t2") (some 45)]
    { id := "i1", user_id := "u", title := "t2", duration_minutes := 45 }
    (by decide)

end SAI
